import Mathlib

/-!
Verification of the workflow execution engine of this repository.

The Go sources are shallowly embedded: dynamic JSON-ish values
(`map[string]interface{}`, `json.RawMessage`) become the inductive `Value`,
Go `float64` numbers are modelled as exact rationals `ℚ` (the engine only
ever compares and copies them; Go's comparison operators on the represented
values coincide with the rational ones), maps become association lists whose
lookup takes the most recent binding, and fallible Go functions returning
`(T, error)` become `Except String T`.  Wall-clock data (timestamps,
durations, generated message ids) is outside the model and is represented by
fixed placeholder values.  Graph traversal, which in Go recurses without a
termination guarantee, is given a fuel parameter: `ExecResult.outOfFuel`
marks runs that would need deeper recursion than the supplied fuel.
-/

set_option maxHeartbeats 1000000

namespace WorkflowEngine

/-- Dynamic JSON-style value, the shallow embedding of Go `interface{}`
values produced by `encoding/json` (strings, numbers, booleans, objects,
arrays, null). -/
inductive Value where
  | str : String → Value
  | num : ℚ → Value
  | bool : Bool → Value
  | obj : List (String × Value) → Value
  | arr : List Value → Value
  | null : Value
deriving Repr

/-- A Go `map[string]interface{}` is modelled as an association list; the
most recent binding for a key wins (matching map overwrite semantics). -/
abbrev VarMap := List (String × Value)

/-- Map lookup: the value of the most recent binding of `k`, if any
(Go `m[k]` / the `value, ok := m[k]` form). -/
def getVar (m : VarMap) (k : String) : Option Value :=
  (m.find? (fun p => p.1 == k)).map (·.2)

/-- Map update `m[k] = v`: later bindings shadow earlier ones. -/
def setVar (m : VarMap) (k : String) (v : Value) : VarMap :=
  (k, v) :: m

/-! ## models/edge.go and models/node.go (execution-relevant fields) -/

/-- `models.EdgeResponse`, restricted to the fields the engine reads
(`ID`, `Source`, `Target`, `SourceHandle`); styling fields are display-only. -/
structure EdgeResponse where
  id : String
  source : String
  target : String
  sourceHandle : Option String
deriving Repr

/-- `models.NodeResponse`, restricted to the fields the engine reads.
`data` is the parsed form of the raw JSON payload `Data`; `none` stands for
an empty `json.RawMessage` (`len(node.Data) == 0`). -/
structure NodeResponse where
  id : String
  type : String
  data : Option Value
deriving Repr

/-- `models.WorkflowResponse`, restricted to the execution-relevant fields. -/
structure WorkflowResponse where
  id : String
  nodes : List NodeResponse
  edges : List EdgeResponse

/-- `models.ExecutionRequest`.  `condition = none` models a nil map. -/
structure ExecutionRequest where
  formData : VarMap
  condition : Option VarMap

/-! ## models/execution.go -/

/-- `models.ExecutionStep`.  `duration` (wall-clock milliseconds) is outside
the model and omitted. -/
structure ExecutionStep where
  nodeId : String
  type : String
  label : String
  description : String
  status : String
  output : Option Value
  error : Option String
deriving Repr

/-- `models.ExecutionContext` (per-run state).  The Go field `Variables` is
called `vars` here because `variables` is reserved in Lean. -/
structure ExecutionContext where
  workflowId : String
  formData : VarMap
  vars : VarMap
  steps : List ExecutionStep
deriving Repr

/-- `models.NewExecutionContext`. -/
def NewExecutionContext (workflowId : String) (formData : VarMap) : ExecutionContext :=
  { workflowId := workflowId, formData := formData, vars := [], steps := [] }

/-- `ExecutionContext.AddStep`: appends one step to the trace. -/
def addStep (ctx : ExecutionContext) (step : ExecutionStep) : ExecutionContext :=
  { ctx with steps := ctx.steps ++ [step] }

/-- `ExecutionContext.SetVariable`. -/
def setVarCtx (ctx : ExecutionContext) (k : String) (v : Value) : ExecutionContext :=
  { ctx with vars := setVar ctx.vars k v }

/-- `models.ExecutionResponse`.  `executedAt` (wall clock) is omitted. -/
structure ExecutionResponse where
  status : String
  steps : List ExecutionStep
  error : Option String
deriving Repr

/-! ## Condition evaluation (engine.go) -/

/-- `Engine.evaluateCondition`: dispatches the run-time operator string to an
ordinary comparison of `temperature` with `threshold`; the `equals` case is
the exact comparison, with no tolerance. -/
def evaluateCondition (temperature : ℚ) (operator : String) (threshold : ℚ) :
    Except String Bool :=
  match operator with
  | "greater_than" => .ok (decide (temperature > threshold))
  | "less_than" => .ok (decide (temperature < threshold))
  | "equals" => .ok (decide (temperature = threshold))
  | "greater_than_or_equal" => .ok (decide (temperature ≥ threshold))
  | "less_than_or_equal" => .ok (decide (temperature ≤ threshold))
  | _ => .error ("unsupported operator: " ++ operator)

/-- `Engine.getOperatorSymbol`. -/
def getOperatorSymbol (operator : String) : String :=
  match operator with
  | "greater_than" => ">"
  | "less_than" => "<"
  | "equals" => "="
  | "greater_than_or_equal" => "≥"
  | "less_than_or_equal" => "≤"
  | _ => "?"

/-- `Engine.shouldFollowEdge`: decides whether an edge leaving a condition
node is followed, from its `sourceHandle` and the boolean condition result. -/
def shouldFollowEdge (edge : EdgeResponse) (conditionResult : Bool) : Bool :=
  match edge.sourceHandle with
  | some h => (h == "true" && conditionResult) || (h == "false" && !conditionResult)
  | none => conditionResult

/-! ## models/node_data.go: typed node payloads

Each Go struct gets a Lean structure and a decoder `decodeX : Value →
Except String X` modelling `json.Unmarshal` into that struct: unknown object
keys are ignored, absent keys leave the zero value, JSON `null` leaves the
zero value, and a type-mismatched value is an error.  (Go's case-insensitive
field-name match and duplicate-key handling are not exercised by anything in
this development; keys are matched exactly here.) -/

/-- `json.Unmarshal` of a value into a Go `string`. -/
def decStr : Value → Except String String
  | .str s => .ok s
  | .null => .ok ""
  | _ => .error "cannot unmarshal into value of type string"

/-- `json.Unmarshal` of a value into a Go `bool`. -/
def decBool : Value → Except String Bool
  | .bool b => .ok b
  | .null => .ok false
  | _ => .error "cannot unmarshal into value of type bool"

/-- `json.Unmarshal` of a value into a Go `float64`. -/
def decFloat : Value → Except String ℚ
  | .num q => .ok q
  | .null => .ok 0
  | _ => .error "cannot unmarshal into value of type float64"

/-- `json.Unmarshal` of a value into a Go `[]string`. -/
def decStrList : Value → Except String (List String)
  | .arr vs => vs.mapM decStr
  | .null => .ok []
  | _ => .error "cannot unmarshal into value of type []string"

/-- Decode one struct field: absent keys keep the zero value `z`. -/
def decField {α : Type} (fs : List (String × Value)) (name : String) (z : α)
    (dec : Value → Except String α) : Except String α :=
  match getVar fs name with
  | none => .ok z
  | some v => dec v

/-- `models.HandleConfig`. -/
structure HandleConfig where
  source : Bool
  target : Bool
deriving Repr

def handleConfigZero : HandleConfig := ⟨false, false⟩

def decHandleConfig : Value → Except String HandleConfig
  | .obj fs => do
    let s ← decField fs "source" false decBool
    let t ← decField fs "target" false decBool
    .ok ⟨s, t⟩
  | .null => .ok handleConfigZero
  | _ => .error "cannot unmarshal into value of type HandleConfig"

/-- `models.HandleConfigWithBranches` (condition nodes): `source` is a list
of branch tags. -/
structure HandleConfigWithBranches where
  source : List String
  target : Bool
deriving Repr

def handleConfigWBZero : HandleConfigWithBranches := ⟨[], false⟩

def decHandleConfigWB : Value → Except String HandleConfigWithBranches
  | .obj fs => do
    let s ← decField fs "source" [] decStrList
    let t ← decField fs "target" false decBool
    .ok ⟨s, t⟩
  | .null => .ok handleConfigWBZero
  | _ => .error "cannot unmarshal into value of type HandleConfigWithBranches"

/-- `models.StartNodeMetadata`. -/
structure StartNodeMetadata where
  hasHandles : HandleConfig
  outputVariables : List String
deriving Repr

def startMetaZero : StartNodeMetadata := ⟨handleConfigZero, []⟩

def decStartNodeMetadata : Value → Except String StartNodeMetadata
  | .obj fs => do
    let h ← decField fs "hasHandles" handleConfigZero decHandleConfig
    let o ← decField fs "outputVariables" [] decStrList
    .ok ⟨h, o⟩
  | .null => .ok startMetaZero
  | _ => .error "cannot unmarshal into value of type StartNodeMetadata"

/-- `models.StartNodeData`. -/
structure StartNodeData where
  label : String
  description : String
  metadata : StartNodeMetadata
deriving Repr

def decodeStartNodeData : Value → Except String StartNodeData
  | .obj fs => do
    let l ← decField fs "label" "" decStr
    let d ← decField fs "description" "" decStr
    let m ← decField fs "metadata" startMetaZero decStartNodeMetadata
    .ok ⟨l, d, m⟩
  | .null => .ok ⟨"", "", startMetaZero⟩
  | _ => .error "cannot unmarshal into value of type StartNodeData"

/-- `StartNodeData.Validate`: always succeeds. -/
def validateStart (_ : StartNodeData) : Option String := none

/-- `models.FormNodeMetadata`. -/
structure FormNodeMetadata where
  hasHandles : HandleConfig
  inputFields : List String
  outputVariables : List String
deriving Repr

def formMetaZero : FormNodeMetadata := ⟨handleConfigZero, [], []⟩

def decFormNodeMetadata : Value → Except String FormNodeMetadata
  | .obj fs => do
    let h ← decField fs "hasHandles" handleConfigZero decHandleConfig
    let i ← decField fs "inputFields" [] decStrList
    let o ← decField fs "outputVariables" [] decStrList
    .ok ⟨h, i, o⟩
  | .null => .ok formMetaZero
  | _ => .error "cannot unmarshal into value of type FormNodeMetadata"

/-- `models.FormNodeData`. -/
structure FormNodeData where
  label : String
  description : String
  metadata : FormNodeMetadata
deriving Repr

def decodeFormNodeData : Value → Except String FormNodeData
  | .obj fs => do
    let l ← decField fs "label" "" decStr
    let d ← decField fs "description" "" decStr
    let m ← decField fs "metadata" formMetaZero decFormNodeMetadata
    .ok ⟨l, d, m⟩
  | .null => .ok ⟨"", "", formMetaZero⟩
  | _ => .error "cannot unmarshal into value of type FormNodeData"

/-- `FormNodeData.Validate`. -/
def validateForm (d : FormNodeData) : Option String :=
  if d.metadata.inputFields.isEmpty then
    some "form node must have at least one input field"
  else none

/-- `models.LocationOption`. -/
structure LocationOption where
  city : String
  lat : ℚ
  lon : ℚ
deriving Repr

def decLocationOption : Value → Except String LocationOption
  | .obj fs => do
    let c ← decField fs "city" "" decStr
    let la ← decField fs "lat" 0 decFloat
    let lo ← decField fs "lon" 0 decFloat
    .ok ⟨c, la, lo⟩
  | .null => .ok ⟨"", 0, 0⟩
  | _ => .error "cannot unmarshal into value of type LocationOption"

def decLocationOptions : Value → Except String (List LocationOption)
  | .arr vs => vs.mapM decLocationOption
  | .null => .ok []
  | _ => .error "cannot unmarshal into value of type []LocationOption"

/-- `models.IntegrationNodeMetadata`. -/
structure IntegrationNodeMetadata where
  hasHandles : HandleConfig
  inputVariables : List String
  apiEndpoint : String
  options : List LocationOption
  outputVariables : List String
deriving Repr

def integrationMetaZero : IntegrationNodeMetadata := ⟨handleConfigZero, [], "", [], []⟩

def decIntegrationNodeMetadata : Value → Except String IntegrationNodeMetadata
  | .obj fs => do
    let h ← decField fs "hasHandles" handleConfigZero decHandleConfig
    let i ← decField fs "inputVariables" [] decStrList
    let a ← decField fs "apiEndpoint" "" decStr
    let o ← decField fs "options" [] decLocationOptions
    let ov ← decField fs "outputVariables" [] decStrList
    .ok ⟨h, i, a, o, ov⟩
  | .null => .ok integrationMetaZero
  | _ => .error "cannot unmarshal into value of type IntegrationNodeMetadata"

/-- `models.IntegrationNodeData`. -/
structure IntegrationNodeData where
  label : String
  description : String
  metadata : IntegrationNodeMetadata
deriving Repr

def decodeIntegrationNodeData : Value → Except String IntegrationNodeData
  | .obj fs => do
    let l ← decField fs "label" "" decStr
    let d ← decField fs "description" "" decStr
    let m ← decField fs "metadata" integrationMetaZero decIntegrationNodeMetadata
    .ok ⟨l, d, m⟩
  | .null => .ok ⟨"", "", integrationMetaZero⟩
  | _ => .error "cannot unmarshal into value of type IntegrationNodeData"

/-- `IntegrationNodeData.Validate`. -/
def validateIntegration (d : IntegrationNodeData) : Option String :=
  if d.metadata.apiEndpoint == "" then
    some "integration node must have an API endpoint"
  else none

/-- `models.ConditionNodeMetadata`. -/
structure ConditionNodeMetadata where
  hasHandles : HandleConfigWithBranches
  conditionExpression : String
  outputVariables : List String
deriving Repr

def conditionMetaZero : ConditionNodeMetadata := ⟨handleConfigWBZero, "", []⟩

def decConditionNodeMetadata : Value → Except String ConditionNodeMetadata
  | .obj fs => do
    let h ← decField fs "hasHandles" handleConfigWBZero decHandleConfigWB
    let c ← decField fs "conditionExpression" "" decStr
    let o ← decField fs "outputVariables" [] decStrList
    .ok ⟨h, c, o⟩
  | .null => .ok conditionMetaZero
  | _ => .error "cannot unmarshal into value of type ConditionNodeMetadata"

/-- `models.ConditionNodeData`. -/
structure ConditionNodeData where
  label : String
  description : String
  metadata : ConditionNodeMetadata
deriving Repr

def decodeConditionNodeData : Value → Except String ConditionNodeData
  | .obj fs => do
    let l ← decField fs "label" "" decStr
    let d ← decField fs "description" "" decStr
    let m ← decField fs "metadata" conditionMetaZero decConditionNodeMetadata
    .ok ⟨l, d, m⟩
  | .null => .ok ⟨"", "", conditionMetaZero⟩
  | _ => .error "cannot unmarshal into value of type ConditionNodeData"

/-- `ConditionNodeData.Validate`. -/
def validateCondition (d : ConditionNodeData) : Option String :=
  if d.metadata.conditionExpression == "" then
    some "condition node must have a condition expression"
  else none

/-- `models.EmailTemplate`. -/
structure EmailTemplate where
  subject : String
  body : String
deriving Repr

def emailTemplateZero : EmailTemplate := ⟨"", ""⟩

def decEmailTemplate : Value → Except String EmailTemplate
  | .obj fs => do
    let s ← decField fs "subject" "" decStr
    let b ← decField fs "body" "" decStr
    .ok ⟨s, b⟩
  | .null => .ok emailTemplateZero
  | _ => .error "cannot unmarshal into value of type EmailTemplate"

/-- `models.EmailNodeMetadata`. -/
structure EmailNodeMetadata where
  hasHandles : HandleConfig
  inputVariables : List String
  emailTemplate : EmailTemplate
  outputVariables : List String
deriving Repr

def emailMetaZero : EmailNodeMetadata := ⟨handleConfigZero, [], emailTemplateZero, []⟩

def decEmailNodeMetadata : Value → Except String EmailNodeMetadata
  | .obj fs => do
    let h ← decField fs "hasHandles" handleConfigZero decHandleConfig
    let i ← decField fs "inputVariables" [] decStrList
    let e ← decField fs "emailTemplate" emailTemplateZero decEmailTemplate
    let o ← decField fs "outputVariables" [] decStrList
    .ok ⟨h, i, e, o⟩
  | .null => .ok emailMetaZero
  | _ => .error "cannot unmarshal into value of type EmailNodeMetadata"

/-- `models.EmailNodeData`. -/
structure EmailNodeData where
  label : String
  description : String
  metadata : EmailNodeMetadata
deriving Repr

def decodeEmailNodeData : Value → Except String EmailNodeData
  | .obj fs => do
    let l ← decField fs "label" "" decStr
    let d ← decField fs "description" "" decStr
    let m ← decField fs "metadata" emailMetaZero decEmailNodeMetadata
    .ok ⟨l, d, m⟩
  | .null => .ok ⟨"", "", emailMetaZero⟩
  | _ => .error "cannot unmarshal into value of type EmailNodeData"

/-- `EmailNodeData.Validate`. -/
def validateEmail (d : EmailNodeData) : Option String :=
  if d.metadata.emailTemplate.subject == "" then
    some "email node must have a subject"
  else if d.metadata.emailTemplate.body == "" then
    some "email node must have a body"
  else none

/-- `models.EndNodeMetadata`. -/
structure EndNodeMetadata where
  hasHandles : HandleConfig
  inputVariables : List String
deriving Repr

def endMetaZero : EndNodeMetadata := ⟨handleConfigZero, []⟩

def decEndNodeMetadata : Value → Except String EndNodeMetadata
  | .obj fs => do
    let h ← decField fs "hasHandles" handleConfigZero decHandleConfig
    let i ← decField fs "inputVariables" [] decStrList
    .ok ⟨h, i⟩
  | .null => .ok endMetaZero
  | _ => .error "cannot unmarshal into value of type EndNodeMetadata"

/-- `models.EndNodeData`. -/
structure EndNodeData where
  label : String
  description : String
  metadata : EndNodeMetadata
deriving Repr

def decodeEndNodeData : Value → Except String EndNodeData
  | .obj fs => do
    let l ← decField fs "label" "" decStr
    let d ← decField fs "description" "" decStr
    let m ← decField fs "metadata" endMetaZero decEndNodeMetadata
    .ok ⟨l, d, m⟩
  | .null => .ok ⟨"", "", endMetaZero⟩
  | _ => .error "cannot unmarshal into value of type EndNodeData"

/-- `EndNodeData.Validate`: always succeeds. -/
def validateEnd (_ : EndNodeData) : Option String := none

/-- The tagged result of `NodeDataUnion` deserialization. -/
inductive NodeDataU where
  | start : StartNodeData → NodeDataU
  | form : FormNodeData → NodeDataU
  | integration : IntegrationNodeData → NodeDataU
  | condition : ConditionNodeData → NodeDataU
  | email : EmailNodeData → NodeDataU
  | «end» : EndNodeData → NodeDataU
deriving Repr

/-- One attempt of `NodeDataUnion.UnmarshalJSON`'s try-each-variant loop:
if the unmarshal succeeds and the variant validates, the variant wins;
an unmarshal failure updates `lastErr`; a validation failure does not. -/
def tryVariant {α : Type} (dec : Value → Except String α) (validate : α → Option String)
    (wrap : α → NodeDataU) (tag : String) (v : Value) (lastErr : Option String)
    (next : Option String → Except String (String × NodeDataU)) :
    Except String (String × NodeDataU) :=
  match dec v with
  | .ok d =>
    match validate d with
    | none => .ok (tag, wrap d)
    | some _ => next lastErr
  | .error e => next (some e)

/-- `NodeDataUnion.UnmarshalJSON`: tries the variants in the fixed order
start, form, integration, condition, email, end; the first one that both
unmarshals and validates wins; otherwise the deserialization fails, quoting
the last unmarshal error. -/
def unmarshalNodeDataUnion (v : Value) : Except String (String × NodeDataU) :=
  tryVariant decodeStartNodeData validateStart NodeDataU.start "start" v none fun e1 =>
  tryVariant decodeFormNodeData validateForm NodeDataU.form "form" v e1 fun e2 =>
  tryVariant decodeIntegrationNodeData validateIntegration NodeDataU.integration
    "integration" v e2 fun e3 =>
  tryVariant decodeConditionNodeData validateCondition NodeDataU.condition
    "condition" v e3 fun e4 =>
  tryVariant decodeEmailNodeData validateEmail NodeDataU.email "email" v e4 fun e5 =>
  tryVariant decodeEndNodeData validateEnd NodeDataU.end "end" v e5 fun e6 =>
  .error ("failed to unmarshal node data into any known type: " ++
    (match e6 with | some e => e | none => "<nil>"))

/-- `true` exactly on `Except.error`. -/
def exceptIsError {ε α : Type} : Except ε α → Bool
  | .error _ => true
  | .ok _ => false

/-! ## validator.go: DefaultInputValidator -/

/-- Whitespace as recognized by Go's `strings.TrimSpace` (restricted to the
ASCII space characters; exotic Unicode spaces are outside the model). -/
def isSpaceChar (c : Char) : Bool :=
  c == ' ' || c == '\t' || c == '\n' || c == '\r'

/-- Go's `strings.TrimSpace`: strips leading and trailing whitespace. -/
def goTrimSpace (s : String) : String :=
  String.mk (((s.data.dropWhile isSpaceChar).reverse.dropWhile isSpaceChar).reverse)

/-- `isEmptyValue`: nil and blank strings are empty; numbers (and every
other non-nil kind) are not. -/
def isEmptyValue : Value → Bool
  | .null => true
  | .str s => goTrimSpace s == ""
  | .num _ => false
  | _ => false

/-- `DefaultInputValidator.validateBasicFieldValue`.  The check for the
`email` field delegates to `net/mail.ParseAddress`, an external collaborator
modelled by the predicate `parseAddr` (true on syntactically valid
addresses). -/
def validateBasicFieldValue (parseAddr : String → Bool) (fieldName : String)
    (value : Value) : Option String :=
  match fieldName with
  | "email" =>
    match value with
    | .str s => if parseAddr s then none else some "must be a valid email address"
    | _ => some "must be a string"
  | "name" =>
    match value with
    | .str s => if goTrimSpace s == "" then some "cannot be empty" else none
    | _ => some "must be a string"
  | _ => none

/-- The body of `ValidateFormData`'s per-field loop: the error message this
field contributes, if any. -/
def checkField (parseAddr : String → Bool) (formData : VarMap)
    (fieldName : String) : Option String :=
  match getVar formData fieldName with
  | none => some ("field '" ++ fieldName ++ "' is required")
  | some value =>
    if isEmptyValue value then some ("field '" ++ fieldName ++ "' is required")
    else
      match validateBasicFieldValue parseAddr fieldName value with
      | some e => some ("field '" ++ fieldName ++ "': " ++ e)
      | none => none

/-- `DefaultInputValidator.ValidateFormData`: with no declared input fields
(or a nil node-data pointer) everything is accepted; otherwise the errors of
every declared field are collected and joined into one message. -/
def ValidateFormData (parseAddr : String → Bool) (formData : VarMap)
    (nodeData : Option FormNodeData) : Option String :=
  match nodeData with
  | none => none
  | some nd =>
    if nd.metadata.inputFields.isEmpty then none
    else
      let errors := nd.metadata.inputFields.filterMap (checkField parseAddr formData)
      if errors.isEmpty then none
      else some ("validation errors: " ++ String.intercalate "; " errors)

/-! ## Fixed-point decimal formatting (Go `fmt.Sprintf` `%.6f` / `%.1f`) -/

/-- The decimal digit character of `n % 10`. -/
def digitChar (n : ℕ) : Char := Char.ofNat (48 + n % 10)

/-- The 6 fractional digits of `fp < 10^6`, most significant first. -/
def frac6 (fp : ℕ) : String :=
  String.mk [digitChar (fp / 100000), digitChar (fp / 10000), digitChar (fp / 1000),
    digitChar (fp / 100), digitChar (fp / 10), digitChar fp]

/-- Go's `fmt.Sprintf("%.6f", x)`: sign, integer part, and exactly six
fractional digits. -/
def fmtF6 (q : ℚ) : String :=
  (if q < 0 then "-" else "") ++
    toString (round (|q| * 1000000) / 1000000) ++ "." ++
    frac6 (round (|q| * 1000000) % 1000000).toNat

/-- Go's `fmt.Sprintf("%.1f", x)`: sign, integer part, one fractional digit. -/
def fmtF1 (q : ℚ) : String :=
  (if q < 0 then "-" else "") ++
    toString (round (|q| * 10) / 10) ++ "." ++
    String.mk [digitChar (round (|q| * 10) % 10).toNat]

/-! ## integration.go: IntegrationService -/

/-- ASCII lower-casing of one character. -/
def lowerChar (c : Char) : Char :=
  if 65 ≤ c.toNat && c.toNat ≤ 90 then Char.ofNat (c.toNat + 32) else c

/-- ASCII lower-casing of a string. -/
def asciiLower (s : String) : String := String.mk (s.data.map lowerChar)

/-- `strings.EqualFold`: case-insensitive equality (restricted to the ASCII
folding; Go also folds exotic Unicode case pairs). -/
def eqFold (a b : String) : Bool := asciiLower a == asciiLower b

/-- Go `fmt`'s `%v` rendering of a `[]string`. -/
def goStringSlice (names : List String) : String :=
  "[" ++ String.intercalate " " names ++ "]"

/-- `IntegrationService.findCityCoordinates`: first case-insensitive match
among the declared options, else an error listing the known city names. -/
def findCityCoordinates (city : String) (options : List LocationOption) :
    Except String LocationOption :=
  match options.find? (fun o => eqFold o.city city) with
  | some o => .ok o
  | none => .error ("city '" ++ city ++ "' not found in available options: " ++
      goStringSlice (options.map (·.city)))

/-- `IntegrationService.buildAPIURL`: substitutes the coordinates into the
endpoint template with fixed 6-decimal formatting. -/
def buildAPIURL (template : String) (lat lon : ℚ) : String :=
  ((template.replace "{lat}" (fmtF6 lat)).replace "{lon}" (fmtF6 lon))

/-- `IntegrationService.extractTemperature`: expects a numeric
`current_weather.temperature` field in the raw response object.  `Value.num`
covers all of Go's numeric cases (float64/float32/int/int64). -/
def extractTemperature (apiResponse : VarMap) : Except String ℚ :=
  match getVar apiResponse "current_weather" with
  | none => .error "current_weather not found in API response"
  | some cw =>
    match cw with
    | .obj cwMap =>
      match getVar cwMap "temperature" with
      | none => .error "temperature not found in current_weather"
      | some t =>
        match t with
        | .num temp => .ok temp
        | _ => .error "temperature is not a numeric value"
    | _ => .error "current_weather is not an object"

/-- `IntegrationService.ExecuteIntegration`.  `apiClient` is the injected
`APIClient.CallAPI` collaborator (url → raw JSON object or error);
`nodeData` is the node's raw payload (`none` = empty `json.RawMessage`,
which cannot be unmarshalled). -/
def ExecuteIntegration (apiClient : String → Except String VarMap)
    (nodeData : Option Value) (inputVariables : VarMap) : Except String VarMap :=
  match (match nodeData with
         | none => .error "unexpected end of JSON input"
         | some v => decodeIntegrationNodeData v : Except String IntegrationNodeData) with
  | .error e => .error ("failed to parse integration node data: " ++ e)
  | .ok integrationData =>
    match getVar inputVariables "city" with
    | none => .error "required input variable 'city' not found"
    | some cityValue =>
      match cityValue with
      | .str city =>
        match findCityCoordinates city integrationData.metadata.options with
        | .error e => .error e
        | .ok coordinates =>
          let apiURL := buildAPIURL integrationData.metadata.apiEndpoint
            coordinates.lat coordinates.lon
          match apiClient apiURL with
          | .error e => .error ("API call failed: " ++ e)
          | .ok apiResponse =>
            match extractTemperature apiResponse with
            | .error e => .error ("failed to extract temperature: " ++ e)
            | .ok temperature =>
              .ok [("temperature", .num temperature),
                   ("location", .str coordinates.city),
                   ("apiResponse", .obj apiResponse)]
      | _ => .error "city must be a string"

/-! ## engine.go: the execution engine -/

/-- The engine's injected collaborators: the HTTP API client, the email
sender, and the address parser used by the validator. -/
structure EngineEnv where
  apiClient : String → Except String VarMap
  sendEmail : String → String → String → Except String Unit
  parseAddr : String → Bool

/-- `Engine.getNodeLabel`. -/
def getNodeLabel (nodeType : String) : String :=
  match nodeType with
  | "start" => "Start"
  | "form" => "User Input"
  | "integration" => "Weather API"
  | "condition" => "Check Condition"
  | "email" => "Send Alert"
  | "end" => "Complete"
  | _ => "Unknown"

/-- `Engine.getNodeDescription`. -/
def getNodeDescription (nodeType : String) : String :=
  match nodeType with
  | "start" => "Begin weather check workflow"
  | "form" => "Process collected data - name, email, location"
  | "integration" => "Fetch current temperature"
  | "condition" => "Evaluate temperature threshold"
  | "email" => "Email weather alert notification"
  | "end" => "Workflow execution finished"
  | _ => "Unknown node type"

/-- Go `fmt`'s `%s` verb applied to a dynamic variable (as in the email
body); only the string case is rendered faithfully, the other cases use
fmt's fallback notations. -/
def goVerbS : Option Value → String
  | some (.str s) => s
  | some _ => "%!s(non-string value)"
  | none => "%!s(<nil>)"

/-- Go `fmt`'s `%.1f` verb applied to a dynamic variable; only the numeric
case is rendered faithfully. -/
def goVerbF1 : Option Value → String
  | some (.num q) => fmtF1 q
  | some _ => "%!f(non-numeric value)"
  | none => "%!f(<nil>)"

/-- Placeholder for `time.Now().Format(time.RFC3339)` (wall clock, outside
the model). -/
def wallClockTimestamp : String := ""

/-- Placeholder for the generated `fmt.Sprintf("msg_%d",
time.Now().UnixNano())` message id (wall clock, outside the model). -/
def wallClockMessageId : String := "msg_0"

/-- `Engine.executeStartNode`. -/
def executeStartNode (node : NodeResponse) (ctx : ExecutionContext) :
    Except String (Value × ExecutionContext) :=
  .ok (.obj [("message", .str "Begin weather check workflow"),
             ("nodeId", .str node.id)], ctx)

/-- The validation phase of `Engine.executeFormNode`: the form data is
validated only when the node's payload is non-empty and parses (a payload
that fails to parse is logged and skipped). -/
def formValidationPhase (env : EngineEnv) (node : NodeResponse)
    (ctx : ExecutionContext) : Except String Unit :=
  match node.data with
  | none => .ok ()
  | some v =>
    match decodeFormNodeData v with
    | .error _ => .ok ()
    | .ok formData =>
      match ValidateFormData env.parseAddr ctx.formData (some formData) with
      | some e => .error ("form validation failed: " ++ e)
      | none => .ok ()

/-- `Engine.executeFormNode`: validates the submitted form data (see
`formValidationPhase`), then copies every form field into the variables
map and echoes the submitted data as output. -/
def executeFormNode (env : EngineEnv) (node : NodeResponse) (ctx : ExecutionContext) :
    Except String (Value × ExecutionContext) :=
  match formValidationPhase env node ctx with
  | .error e => .error e
  | .ok _ =>
    .ok (.obj ctx.formData,
         ctx.formData.foldl (fun c kv => setVarCtx c kv.1 kv.2) ctx)

/-- `Engine.executeIntegrationNode`: copies the submitted form data into the
integration's input variables, runs the integration, and stores the
resulting temperature and location in the variables map. -/
def executeIntegrationNode (env : EngineEnv) (node : NodeResponse)
    (ctx : ExecutionContext) : Except String (Value × ExecutionContext) :=
  let inputVariables := ctx.formData
  match ExecuteIntegration env.apiClient node.data inputVariables with
  | .error e => .error ("integration execution failed: " ++ e)
  | .ok result =>
    let ctx := match getVar result "temperature" with
      | some t => setVarCtx ctx "temperature" t
      | none => ctx
    let ctx := match getVar result "location" with
      | some l => setVarCtx ctx "location" l
      | none => ctx
    .ok (.obj result, ctx)

/-- `Engine.executeConditionNode`: reads operator/threshold (placed in the
variables map under the `condition_` prefix) and the temperature, evaluates
the condition, and stores the boolean result under `conditionMet`. -/
def executeConditionNode (node : NodeResponse) (ctx : ExecutionContext) :
    Except String (Value × ExecutionContext) :=
  match getVar ctx.vars "condition_operator" with
  | none => .error "condition operator not found"
  | some operatorValue =>
    match getVar ctx.vars "condition_threshold" with
    | none => .error "condition threshold not found"
    | some thresholdValue =>
      match operatorValue with
      | .str operator =>
        match thresholdValue with
        | .num threshold =>
          match getVar ctx.vars "temperature" with
          | none => .error "temperature not found in execution context"
          | some temperatureValue =>
            match temperatureValue with
            | .num temperature =>
              match evaluateCondition temperature operator threshold with
              | .error e => .error ("condition evaluation failed: " ++ e)
              | .ok conditionMet =>
                let ctx := setVarCtx ctx "conditionMet" (.bool conditionMet)
                .ok (.obj [("conditionMet", .bool conditionMet),
                           ("operator", .str operator),
                           ("threshold", .num threshold),
                           ("actualValue", .num temperature),
                           ("message", "Temperature " ++ fmtF1 temperature ++ "°C " ++
                             getOperatorSymbol operator ++ " " ++ fmtF1 threshold ++
                             "°C - condition " ++
                             (if conditionMet then "met" else "not met") |> .str)],
                      ctx)
            | _ => .error "temperature must be a number"
        | _ => .error "condition threshold must be a number"
      | _ => .error "condition operator must be a string"

/-- `Engine.executeEmailNode`: reads the recipient from the `email`
variable, composes the alert, and sends it through the email collaborator. -/
def executeEmailNode (env : EngineEnv) (node : NodeResponse)
    (ctx : ExecutionContext) : Except String (Value × ExecutionContext) :=
  match getVar ctx.vars "email" with
  | none => .error "email field not found in form data"
  | some emailValue =>
    match emailValue with
    | .str toEmail =>
      let name := getVar ctx.vars "name"
      let location := getVar ctx.vars "location"
      let temperature := getVar ctx.vars "temperature"
      let subject := "Weather Alert"
      let body0 := "Weather alert for " ++ goVerbS location ++ "! Temperature is " ++
        goVerbF1 temperature ++ "°C!"
      let body := match name with
        | some (.str nameStr) => "Hi " ++ nameStr ++ ", " ++ asciiLower body0
        | _ => body0
      match env.sendEmail toEmail subject body with
      | .error e => .error ("failed to send email: " ++ e)
      | .ok _ =>
        .ok (.obj [("emailDraft", .obj [("to", .str toEmail),
                     ("from", .str "weather-alerts@example.com"),
                     ("subject", .str subject), ("body", .str body),
                     ("timestamp", .str wallClockTimestamp)]),
                   ("deliveryStatus", .str "sent"),
                   ("messageId", .str wallClockMessageId),
                   ("emailSent", .bool true)], ctx)
    | _ => .error "email field must be a string"

/-- `Engine.executeEndNode`. -/
def executeEndNode (node : NodeResponse) (ctx : ExecutionContext) :
    Except String (Value × ExecutionContext) :=
  .ok (.obj [("message", .str "Workflow execution finished"),
             ("nodeId", .str node.id)], ctx)

/-- The per-type dispatch switch at the heart of `Engine.executeNode`. -/
def dispatchNode (env : EngineEnv) (node : NodeResponse) (ctx : ExecutionContext) :
    Except String (Value × ExecutionContext) :=
  match node.type with
  | "start" => executeStartNode node ctx
  | "form" => executeFormNode env node ctx
  | "integration" => executeIntegrationNode env node ctx
  | "condition" => executeConditionNode node ctx
  | "email" => executeEmailNode env node ctx
  | "end" => executeEndNode node ctx
  | _ => .error ("unsupported node type: " ++ node.type)

/-- Result of executing (part of) a workflow: success or failure, each with
the final context, or exhaustion of the recursion fuel. -/
inductive ExecResult where
  | ok (ctx : ExecutionContext)
  | fail (msg : String) (ctx : ExecutionContext)
  | outOfFuel
deriving Repr

/-- The Go `nodeMap[id]` lookup (built once per run from the node list). -/
def findNode (nodes : List NodeResponse) (id : String) : Option NodeResponse :=
  nodes.find? (fun n => n.id == id)

/-- The Go `edgeMap[source]` lookup: outgoing edges in edge-list order. -/
def edgesFrom (edges : List EdgeResponse) (source : String) : List EdgeResponse :=
  edges.filter (fun e => e.source == source)

/-- `Engine.executeNextNodes`: follows every edge in order, executing each
target (`exec` is the recursive `executeNode` at the remaining fuel). -/
def executeNextNodes (nodes : List NodeResponse)
    (exec : NodeResponse → ExecutionContext → ExecResult) :
    List EdgeResponse → ExecutionContext → ExecResult
  | [], ctx => .ok ctx
  | edge :: rest, ctx =>
    match findNode nodes edge.target with
    | none => .fail ("next node not found: " ++ edge.target) ctx
    | some nextNode =>
      match exec nextNode ctx with
      | .ok ctx' => executeNextNodes nodes exec rest ctx'
      | .fail msg c => .fail msg c
      | .outOfFuel => .outOfFuel

/-- The edge loop of `Engine.continueToNextNodes`'s condition branch:
follows exactly the edges selected by `shouldFollowEdge`. -/
def followConditionEdges (nodes : List NodeResponse)
    (exec : NodeResponse → ExecutionContext → ExecResult) (conditionResult : Bool) :
    List EdgeResponse → ExecutionContext → ExecResult
  | [], ctx => .ok ctx
  | edge :: rest, ctx =>
    if shouldFollowEdge edge conditionResult then
      match findNode nodes edge.target with
      | none => .fail ("next node not found: " ++ edge.target) ctx
      | some nextNode =>
        match exec nextNode ctx with
        | .ok ctx' => followConditionEdges nodes exec conditionResult rest ctx'
        | .fail msg c => .fail msg c
        | .outOfFuel => .outOfFuel
    else followConditionEdges nodes exec conditionResult rest ctx

/-- `Engine.continueToNextNodes`: non-condition nodes follow all outgoing
edges; a condition node reads the stored boolean `conditionMet` and follows
only matching edges. -/
def continueToNextNodes (nodes : List NodeResponse) (edges : List EdgeResponse)
    (exec : NodeResponse → ExecutionContext → ExecResult)
    (currentNode : NodeResponse) (ctx : ExecutionContext) : ExecResult :=
  let outgoing := edgesFrom edges currentNode.id
  if currentNode.type == "condition" then
    match getVar ctx.vars "conditionMet" with
    | none => .fail "condition result not found in context" ctx
    | some conditionMet =>
      match conditionMet with
      | .bool conditionResult =>
        followConditionEdges nodes exec conditionResult outgoing ctx
      | _ => .fail "condition result must be boolean" ctx
  else executeNextNodes nodes exec outgoing ctx

/-- The step record `Engine.executeNode` appends for one node visit: Go
builds it with status `running`, fills the result fields, and only then
appends it with its final status — so only the final record reaches the
trace.  (The wall-clock `duration` is outside the model.) -/
def stepOf (node : NodeResponse) (status : String) (output : Option Value)
    (err : Option String) : ExecutionStep :=
  { nodeId := node.id, type := node.type, label := getNodeLabel node.type,
    description := getNodeDescription node.type, status := status,
    output := output, error := err }

/-- `Engine.executeNode`: appends one step per visit (completed, or failed
with the dispatch error) and recurses along the outgoing edges.  The fuel
bounds the recursion depth that Go leaves unbounded. -/
def executeNode (env : EngineEnv) (nodes : List NodeResponse)
    (edges : List EdgeResponse) : ℕ → NodeResponse → ExecutionContext → ExecResult
  | 0 => fun _ _ => .outOfFuel
  | fuel + 1 => fun node ctx =>
    match dispatchNode env node ctx with
    | .error err =>
      .fail err (addStep ctx (stepOf node "failed" none (some err)))
    | .ok (output, ctx1) =>
      continueToNextNodes nodes edges (executeNode env nodes edges fuel) node
        (addStep ctx1 (stepOf node "completed" (some output) none))

/-- `Engine.ExecuteWorkflow`: seeds the context with the `condition_`
prefixed run inputs, locates the start node (failing with an empty trace if
there is none), runs the traversal, and wraps the outcome.  Returns `none`
when the fuel does not cover the recursion depth. -/
def ExecuteWorkflow (env : EngineEnv) (fuel : ℕ) (workflow : WorkflowResponse)
    (req : ExecutionRequest) : Option ExecutionResponse :=
  let execCtx := NewExecutionContext workflow.id req.formData
  let execCtx := match req.condition with
    | none => execCtx
    | some cond => cond.foldl (fun c kv => setVarCtx c ("condition_" ++ kv.1) kv.2) execCtx
  match workflow.nodes.find? (fun n => n.type == "start") with
  | none =>
    some { status := "failed", steps := execCtx.steps, error := some "no start node found" }
  | some startNode =>
    match executeNode env workflow.nodes workflow.edges fuel startNode execCtx with
    | .fail msg ctx' => some { status := "failed", steps := ctx'.steps, error := some msg }
    | .ok ctx' => some { status := "completed", steps := ctx'.steps, error := none }
    | .outOfFuel => none

/-! ## Specification predicates -/

/-- `p` is a string prefix of `s`. -/
def strHasPrefix (p s : String) : Bool := p.data.isPrefixOf s.data

/-- Shape of an engine result's trace relative to the starting context:
steps are only ever appended; a successful sub-run appends only completed
steps; a failing sub-run appends completed steps and, unless the failure is
the traversal-level `next node not found` error, ends with exactly one
failed step carrying the error message. -/
def StepsSpec (ctx : ExecutionContext) : ExecResult → Prop
  | .ok ctx' =>
      ∃ mid, ctx'.steps = ctx.steps ++ mid ∧ ∀ s ∈ mid, s.status = "completed"
  | .fail msg ctx' =>
      ∃ mid, ctx'.steps = ctx.steps ++ mid ∧
        ((∃ pre fs, mid = pre ++ [fs] ∧ (∀ s ∈ pre, s.status = "completed") ∧
            fs.status = "failed" ∧ fs.error = some msg)
         ∨ ((∃ t, msg = "next node not found: " ++ t) ∧ ∀ s ∈ mid, s.status = "completed"))
  | .outOfFuel => True

/-! ## Concrete fixtures for witnesses and counterexamples -/

/-- Collaborators for runs that never reach an integration node. -/
def plainEnv : EngineEnv :=
  { apiClient := fun _ => .error "service unavailable",
    sendEmail := fun _ _ _ => .ok (),
    parseAddr := fun s => s == "alice@example.com" }

/-- An empty run request. -/
def emptyReq : ExecutionRequest := { formData := [], condition := none }

/-- start → node of unknown type: the second dispatch fails. -/
def unknownTypeWorkflow : WorkflowResponse :=
  { id := "w-unknown",
    nodes := [⟨"s", "start", none⟩, ⟨"x", "mystery", none⟩],
    edges := [⟨"e1", "s", "x", none⟩] }

/-- A form payload that does not unmarshal into `FormNodeData`
(`metadata` is a number, not an object). -/
def badFormPayload : Value := .obj [("metadata", .num 5)]

/-- start → form whose payload fails to parse. -/
def swallowedParseWorkflow : WorkflowResponse :=
  { id := "w-parse",
    nodes := [⟨"s", "start", none⟩, ⟨"f", "form", some badFormPayload⟩],
    edges := [⟨"e1", "s", "f", none⟩] }

/-- A form payload declaring one required input field, `name`. -/
def requiredNameForm : Value :=
  .obj [("metadata", .obj [("inputFields", .arr [.str "name"])])]

/-- start → form that validates a missing required field. -/
def validationFailWorkflow : WorkflowResponse :=
  { id := "w-validate",
    nodes := [⟨"s", "start", none⟩, ⟨"f", "form", some requiredNameForm⟩],
    edges := [⟨"e1", "s", "f", none⟩] }

/-- A diamond: start fans out to `a` and `b`, which re-converge on `d`. -/
def diamondWorkflow : WorkflowResponse :=
  { id := "w-diamond",
    nodes := [⟨"start", "start", none⟩, ⟨"a", "end", none⟩,
              ⟨"b", "end", none⟩, ⟨"d", "end", none⟩],
    edges := [⟨"ea", "start", "a", none⟩, ⟨"eb", "start", "b", none⟩,
              ⟨"ead", "a", "d", none⟩, ⟨"ebd", "b", "d", none⟩] }

/-- A workflow with no start node. -/
def noStartWorkflow : WorkflowResponse :=
  { id := "w-nostart", nodes := [⟨"x", "end", none⟩], edges := [] }

/-- The integration payload of the engine test: an Open-Meteo endpoint
template and two location options. -/
def weatherNodePayload : Value :=
  .obj [("metadata", .obj [
    ("apiEndpoint",
      .str "https://api.open-meteo.com/v1/forecast?latitude={lat}&longitude={lon}"),
    ("options", .arr [
      .obj [("city", .str "Sydney"), ("lat", .num (mkRat (-338688) 10000)),
            ("lon", .num (mkRat 1512093 10000))],
      .obj [("city", .str "Melbourne"), ("lat", .num (mkRat (-378136) 10000)),
            ("lon", .num (mkRat 1449631 10000))]])])]

/-- The integration node built on that payload. -/
def weatherNode : NodeResponse := ⟨"weather", "integration", some weatherNodePayload⟩

/-- The mocked raw weather response (28.5 degrees). -/
def mockWeatherResponse : VarMap :=
  [("current_weather", .obj [("temperature", .num (mkRat 57 2)),
                             ("time", .str "2024-01-01T12:00")])]

/-- Collaborators whose API client always answers with the mocked weather. -/
def mockEnv : EngineEnv :=
  { apiClient := fun _ => .ok mockWeatherResponse,
    sendEmail := fun _ _ _ => .ok (),
    parseAddr := fun _ => true }

/-- A context whose variables map and form data disagree about the city:
the variables say Melbourne, the submitted form says Sydney. -/
def mismatchCtx : ExecutionContext :=
  { workflowId := "w", formData := [("city", .str "Sydney")],
    vars := [("city", .str "Melbourne")], steps := [] }

/-- Form-node data declaring the fields `name`, `email` and `city`. -/
def sampleFormNodeData : FormNodeData :=
  ⟨"", "", ⟨handleConfigZero, ["name", "email", "city"], []⟩⟩

/-- A submission with a blank name, an invalid email and no city. -/
def sampleFormSubmission : VarMap := [("name", .str " "), ("email", .str "bad@")]

/-- A toy model of `mail.ParseAddress` accepting one known-good address. -/
def sampleParseAddr : String → Bool := fun s => s == "alice@example.com"

/-- A condition node. -/
def condNode : NodeResponse := ⟨"c", "condition", none⟩

/-- A context holding a true condition result. -/
def condCtx : ExecutionContext :=
  { workflowId := "w", formData := [], vars := [("conditionMet", .bool true)], steps := [] }

/-- Outgoing edges of the condition node with true/false/absent handles. -/
def condEdges : List EdgeResponse :=
  [⟨"t", "c", "x", some "true"⟩, ⟨"f", "c", "y", some "false"⟩, ⟨"n", "c", "z", none⟩]

/-- The completed step of a start node with id `s`. -/
def startStepDone : ExecutionStep :=
  { nodeId := "s", type := "start", label := "Start",
    description := "Begin weather check workflow", status := "completed",
    output := some (.obj [("message", .str "Begin weather check workflow"),
                          ("nodeId", .str "s")]),
    error := none }

/-- The response of running `unknownTypeWorkflow`. -/
def unknownTypeResp : ExecutionResponse :=
  { status := "failed",
    steps := [startStepDone,
      { nodeId := "x", type := "mystery", label := "Unknown",
        description := "Unknown node type", status := "failed", output := none,
        error := some "unsupported node type: mystery" }],
    error := some "unsupported node type: mystery" }

/-- The response of running `validationFailWorkflow`. -/
def validationFailResp : ExecutionResponse :=
  { status := "failed",
    steps := [startStepDone,
      { nodeId := "f", type := "form", label := "User Input",
        description := "Process collected data - name, email, location",
        status := "failed", output := none,
        error := some "form validation failed: validation errors: field 'name' is required" }],
    error := some "form validation failed: validation errors: field 'name' is required" }

/-- A lone end node. -/
def singleEndNode : NodeResponse := ⟨"n", "end", none⟩

/-- A fresh context for the lone-end-node run. -/
def endOnlyCtx : ExecutionContext := NewExecutionContext "w" []

/-- The context after executing the lone end node. -/
def endOnlyCtxAfter : ExecutionContext :=
  { workflowId := "w", formData := [], vars := [],
    steps := [{ nodeId := "n", type := "end", label := "Complete",
                description := "Workflow execution finished", status := "completed",
                output := some (.obj [("message", .str "Workflow execution finished"),
                                      ("nodeId", .str "n")]),
                error := none }] }

/-! # Theorems -/

@[simp] theorem getVar_setVar_self (m : VarMap) (k : String) (v : Value) :
    getVar (setVar m k v) k = some v := by
  simp [getVar, setVar, List.find?]

theorem getVar_setVar_ne (m : VarMap) (k k' : String) (v : Value) (h : k' ≠ k) :
    getVar (setVar m k v) k' = getVar m k' := by
  have hk : (k == k') = false := by
    simp only [beq_eq_false_iff_ne, ne_eq]
    exact fun e => h e.symm
  simp [getVar, setVar, List.find?, hk]

theorem followConditionEdges_eq_filter (nodes : List NodeResponse)
    (exec : NodeResponse → ExecutionContext → ExecResult) (r : Bool) :
    ∀ (l : List EdgeResponse) (ctx : ExecutionContext),
      followConditionEdges nodes exec r l ctx
        = executeNextNodes nodes exec (l.filter (fun e => shouldFollowEdge e r)) ctx := by
  intro l
  induction l with
  | nil => intro ctx; rfl
  | cons e rest ih =>
    intro ctx
    by_cases h : shouldFollowEdge e r
    · cases hf : findNode nodes e.target with
      | none => simp [followConditionEdges, executeNextNodes, List.filter_cons, h, hf]
      | some nxt =>
        cases hx : exec nxt ctx with
        | ok ctx' =>
          simp [followConditionEdges, executeNextNodes, List.filter_cons, h, hf, hx, ih]
        | fail m c =>
          simp [followConditionEdges, executeNextNodes, List.filter_cons, h, hf, hx]
        | outOfFuel =>
          simp [followConditionEdges, executeNextNodes, List.filter_cons, h, hf, hx]
    · simp [followConditionEdges, List.filter_cons, h, ih]

/-- C1: for a condition node whose boolean result has been written into the
variables map, the traversal follows exactly the outgoing edges selected by
`shouldFollowEdge`, and `shouldFollowEdge` follows an edge whose
`sourceHandle` is `"true"` iff the result is true, one whose handle is
`"false"` iff the result is false, and one with no handle iff the result is
true. -/
theorem condition_edge_selection (nodes : List NodeResponse) (edges : List EdgeResponse)
    (exec : NodeResponse → ExecutionContext → ExecResult) (node : NodeResponse)
    (ctx : ExecutionContext) (r : Bool)
    (htype : node.type = "condition")
    (hres : getVar ctx.vars "conditionMet" = some (.bool r)) :
    continueToNextNodes nodes edges exec node ctx
      = executeNextNodes nodes exec
          ((edgesFrom edges node.id).filter (fun e => shouldFollowEdge e r)) ctx
    ∧ ∀ e : EdgeResponse,
        (e.sourceHandle = some "true" → shouldFollowEdge e r = r)
        ∧ (e.sourceHandle = some "false" → shouldFollowEdge e r = (!r))
        ∧ (e.sourceHandle = none → shouldFollowEdge e r = r) := by
  constructor
  · unfold continueToNextNodes
    simp [htype, hres, followConditionEdges_eq_filter]
  · intro e
    refine ⟨?_, ?_, ?_⟩ <;> intro hh <;> simp [shouldFollowEdge, hh]

/-- C1 witness: the concrete condition node with a stored `true` result. -/
theorem condition_edge_selection_witness :
    continueToNextNodes [] condEdges (fun _ c => .ok c) condNode condCtx
      = executeNextNodes [] (fun _ c => .ok c)
          ((edgesFrom condEdges condNode.id).filter (fun e => shouldFollowEdge e true)) condCtx
    ∧ shouldFollowEdge ⟨"t", "c", "x", some "true"⟩ true = true := by
  have h := condition_edge_selection [] condEdges (fun _ c => .ok c) condNode condCtx true
    rfl rfl
  exact ⟨h.1, (h.2 ⟨"t", "c", "x", some "true"⟩).1 rfl⟩

/-- C2: each supported operator evaluates to the corresponding exact
comparison of temperature with threshold (`equals` is exact equality, with
no tolerance), and every other operator string is rejected with the
unsupported-operator error. -/
theorem condition_operator_semantics (t th : ℚ) :
    evaluateCondition t "greater_than" th = .ok (decide (t > th))
    ∧ evaluateCondition t "less_than" th = .ok (decide (t < th))
    ∧ evaluateCondition t "equals" th = .ok (decide (t = th))
    ∧ evaluateCondition t "greater_than_or_equal" th = .ok (decide (t ≥ th))
    ∧ evaluateCondition t "less_than_or_equal" th = .ok (decide (t ≤ th))
    ∧ ∀ op : String,
        op ∉ ["greater_than", "less_than", "equals", "greater_than_or_equal",
          "less_than_or_equal"] →
        evaluateCondition t op th = .error ("unsupported operator: " ++ op) := by
  refine ⟨rfl, rfl, rfl, rfl, rfl, ?_⟩
  intro op hop
  unfold evaluateCondition
  split <;> simp_all

/-- C2 witness: an unsupported operator at concrete inputs. -/
theorem condition_operator_semantics_witness :
    evaluateCondition (mkRat 57 2) "between" (mkRat 25 1)
      = .error "unsupported operator: between" := by
  exact (condition_operator_semantics (mkRat 57 2) (mkRat 25 1)).2.2.2.2.2 "between"
    (by decide)

theorem forall_mem_dropWhile_iff (p : Char → Bool) (l : List Char) :
    (∀ c ∈ l.dropWhile p, p c = true) ↔ ∀ c ∈ l, p c = true := by
  induction l with
  | nil => simp
  | cons c l ih =>
    by_cases h : p c
    · simp [List.dropWhile_cons, h, ih]
    · simp [List.dropWhile_cons, h]

theorem goTrimSpace_eq_empty_iff (s : String) :
    (goTrimSpace s == "") = true ↔ ∀ c ∈ s.data, isSpaceChar c = true := by
  unfold goTrimSpace
  rw [beq_iff_eq]
  constructor
  · intro h
    have hl : ((s.data.dropWhile isSpaceChar).reverse.dropWhile isSpaceChar).reverse = [] :=
      congrArg String.data h
    rw [List.reverse_eq_nil_iff, List.dropWhile_eq_nil_iff] at hl
    have hall : ∀ x ∈ s.data.dropWhile isSpaceChar, isSpaceChar x = true :=
      fun x hx => hl x (List.mem_reverse.mpr hx)
    exact fun c hc => (forall_mem_dropWhile_iff _ _).mp hall c hc
  · intro h
    have hd : s.data.dropWhile isSpaceChar = [] := List.dropWhile_eq_nil_iff.mpr h
    rw [hd]
    rfl

theorem validate_fails_of_checkField (p : String → Bool) (fd : VarMap)
    (nd : FormNodeData) (f : String) (m : String)
    (hf : f ∈ nd.metadata.inputFields) (hm : checkField p fd f = some m) :
    ValidateFormData p fd (some nd) ≠ none := by
  unfold ValidateFormData
  have hni : nd.metadata.inputFields.isEmpty = false := by
    rw [List.isEmpty_eq_false]
    exact List.ne_nil_of_mem hf
  have hmem : m ∈ nd.metadata.inputFields.filterMap (checkField p fd) :=
    List.mem_filterMap.mpr ⟨f, hf, hm⟩
  have hers : (nd.metadata.inputFields.filterMap (checkField p fd)).isEmpty = false := by
    rw [List.isEmpty_eq_false]
    exact List.ne_nil_of_mem hmem
  simp [hni, hers]

/-- C6: with no declared fields every submission is accepted; a declared
field that is absent or empty (blank string; numbers are never empty) makes
validation fail; a declared `email` field must satisfy the address parser
and a declared `name` field must be non-blank after trimming; and all
failures are collected and joined into one combined message. -/
theorem form_validation_spec (parseAddr : String → Bool) (formData : VarMap) :
    ValidateFormData parseAddr formData none = none
    ∧ (∀ nd : FormNodeData, nd.metadata.inputFields = [] →
        ValidateFormData parseAddr formData (some nd) = none)
    ∧ (∀ q : ℚ, isEmptyValue (.num q) = false)
    ∧ (∀ s : String, isEmptyValue (.str s) = true ↔ ∀ c ∈ s.data, isSpaceChar c = true)
    ∧ (∀ (nd : FormNodeData) (f : String), f ∈ nd.metadata.inputFields →
        (getVar formData f = none
          ∨ ∃ v, getVar formData f = some v ∧ isEmptyValue v = true) →
        ValidateFormData parseAddr formData (some nd) ≠ none)
    ∧ (∀ (nd : FormNodeData) (s : String), "email" ∈ nd.metadata.inputFields →
        getVar formData "email" = some (.str s) → parseAddr s = false →
        ValidateFormData parseAddr formData (some nd) ≠ none)
    ∧ (∀ (nd : FormNodeData) (s : String), "name" ∈ nd.metadata.inputFields →
        getVar formData "name" = some (.str s) → goTrimSpace s = "" →
        ValidateFormData parseAddr formData (some nd) ≠ none)
    ∧ (∀ (nd : FormNodeData) (es : List String),
        nd.metadata.inputFields.filterMap (checkField parseAddr formData) = es →
        es ≠ [] →
        ValidateFormData parseAddr formData (some nd)
          = some ("validation errors: " ++ String.intercalate "; " es))
    ∧ (∀ (nd : FormNodeData) (f m : String), f ∈ nd.metadata.inputFields →
        checkField parseAddr formData f = some m →
        m ∈ nd.metadata.inputFields.filterMap (checkField parseAddr formData)) := by
  refine ⟨rfl, ?_, fun _ => rfl, ?_, ?_, ?_, ?_, ?_, ?_⟩
  · intro nd h
    simp [ValidateFormData, h]
  · intro s
    exact goTrimSpace_eq_empty_iff s
  · intro nd f hf hcase
    rcases hcase with habs | ⟨v, hv, hemp⟩
    · exact validate_fails_of_checkField parseAddr formData nd f
        ("field '" ++ f ++ "' is required") hf (by simp [checkField, habs])
    · exact validate_fails_of_checkField parseAddr formData nd f
        ("field '" ++ f ++ "' is required") hf (by simp [checkField, hv, hemp])
  · intro nd s hf hgv hpa
    by_cases hemp : isEmptyValue (.str s) = true
    · exact validate_fails_of_checkField parseAddr formData nd "email"
        ("field '" ++ "email" ++ "' is required") hf (by simp [checkField, hgv, hemp])
    · exact validate_fails_of_checkField parseAddr formData nd "email"
        ("field '" ++ "email" ++ "': " ++ "must be a valid email address") hf
        (by simp [checkField, hgv, hemp, validateBasicFieldValue, hpa])
  · intro nd s hf hgv htrim
    have hemp : isEmptyValue (.str s) = true := by simp [isEmptyValue, htrim]
    exact validate_fails_of_checkField parseAddr formData nd "name"
      ("field '" ++ "name" ++ "' is required") hf (by simp [checkField, hgv, hemp])
  · intro nd es hes hne
    have hfne : nd.metadata.inputFields ≠ [] := by
      intro h
      exact hne (by rw [← hes, h]; rfl)
    have hni : nd.metadata.inputFields.isEmpty = false := by
      rw [List.isEmpty_eq_false]
      exact hfne
    have hers : (nd.metadata.inputFields.filterMap (checkField parseAddr formData)).isEmpty
        = false := by
      rw [List.isEmpty_eq_false, hes]
      exact hne
    simp [ValidateFormData, hni, hers, hes]
    exact hne
  · intro nd f m hf hm
    exact List.mem_filterMap.mpr ⟨f, hf, hm⟩

/-- C6 witness: a blank name, an unparseable email and a missing city are
all reported in one joined message. -/
theorem form_validation_spec_witness :
    ValidateFormData sampleParseAddr sampleFormSubmission (some sampleFormNodeData)
      = some ("validation errors: field 'name' is required; " ++
          "field 'email': must be a valid email address; field 'city' is required") := by
  exact (form_validation_spec sampleParseAddr sampleFormSubmission).2.2.2.2.2.2.2.1
    sampleFormNodeData
    ["field 'name' is required", "field 'email': must be a valid email address",
     "field 'city' is required"] rfl (by decide)

/-- C7: the integration matches the city case-insensitively against the
declared options; with no match it fails with the message listing the known
options; with a match it calls the API at the endpoint template with the
matched option's coordinates substituted for `{lat}`/`{lon}` in fixed
6-decimal formatting, and on success returns the canonical city name from
the matched option (not the caller's casing). -/
theorem integration_call_spec (api : String → Except String VarMap)
    (d : Value) (idata : IntegrationNodeData) (inputs : VarMap) (city : String)
    (hdec : decodeIntegrationNodeData d = .ok idata)
    (hcity : getVar inputs "city" = some (.str city)) :
    (idata.metadata.options.find? (fun o => eqFold o.city city) = none →
      ExecuteIntegration api (some d) inputs
        = .error ("city '" ++ city ++ "' not found in available options: " ++
            goStringSlice (idata.metadata.options.map (·.city))))
    ∧ (∀ o, idata.metadata.options.find? (fun o => eqFold o.city city) = some o →
        ∀ (resp : VarMap) (t : ℚ),
          api (buildAPIURL idata.metadata.apiEndpoint o.lat o.lon) = .ok resp →
          extractTemperature resp = .ok t →
          ExecuteIntegration api (some d) inputs
            = .ok [("temperature", .num t), ("location", .str o.city),
                   ("apiResponse", .obj resp)])
    ∧ (∀ q : ℚ, ∃ intPart frac : String,
        fmtF6 q = intPart ++ "." ++ frac ∧ frac.length = 6) := by
  refine ⟨?_, ?_, ?_⟩
  · intro hfind
    simp [ExecuteIntegration, hdec, hcity, findCityCoordinates, hfind]
  · intro o hfind resp t hapi hext
    simp [ExecuteIntegration, hdec, hcity, findCityCoordinates, hfind, hapi, hext]
  · intro q
    exact ⟨(if q < 0 then "-" else "") ++ toString (round (|q| * 1000000) / 1000000),
      frac6 (round (|q| * 1000000) % 1000000).toNat, rfl, rfl⟩

/-- C7 witness: the caller's casing `sYdNeY` matches the `Sydney` option and
the canonical name is returned. -/
theorem integration_call_spec_witness :
    ExecuteIntegration mockEnv.apiClient (some weatherNodePayload) [("city", .str "sYdNeY")]
      = .ok [("temperature", .num (mkRat 57 2)), ("location", .str "Sydney"),
             ("apiResponse", .obj mockWeatherResponse)] := by
  exact (integration_call_spec mockEnv.apiClient weatherNodePayload
      ⟨"", "", ⟨handleConfigZero, [],
        "https://api.open-meteo.com/v1/forecast?latitude={lat}&longitude={lon}",
        [⟨"Sydney", mkRat (-338688) 10000, mkRat 1512093 10000⟩,
         ⟨"Melbourne", mkRat (-378136) 10000, mkRat 1449631 10000⟩], []⟩⟩
      [("city", .str "sYdNeY")] "sYdNeY" rfl rfl).2.1
    ⟨"Sydney", mkRat (-338688) 10000, mkRat 1512093 10000⟩ rfl
    mockWeatherResponse (mkRat 57 2) rfl rfl

/-- C10 amended: polymorphic deserialization classifies a payload as the
start variant whenever it unmarshals into `StartNodeData` (whose validation
always succeeds), because start is tried first. -/
theorem union_start_priority (v : Value) (d : StartNodeData)
    (h : decodeStartNodeData v = .ok d) :
    unmarshalNodeDataUnion v = .ok ("start", .start d) ∧ validateStart d = none := by
  refine ⟨?_, rfl⟩
  simp [unmarshalNodeDataUnion, tryVariant, h, validateStart]

/-- C10 witness: the empty object is classified as start. -/
theorem union_start_priority_witness :
    unmarshalNodeDataUnion (.obj []) = .ok ("start", .start ⟨"", "", startMetaZero⟩) :=
  (union_start_priority (.obj []) ⟨"", "", startMetaZero⟩ rfl).1

/-- C10 counterexample: a JSON object whose `label` is a number fails every
variant (deserialization errors), and one whose `metadata.outputVariables`
is a number falls through to the end variant — so deserialization neither
succeeds on every object nor always selects start. -/
theorem union_start_priority_counterexample :
    exceptIsError (unmarshalNodeDataUnion (.obj [("label", .num 5)])) = true
    ∧ unmarshalNodeDataUnion (.obj [("metadata", .obj [("outputVariables", .num 5)])])
        = .ok ("end", .«end» ⟨"", "", endMetaZero⟩) :=
  ⟨rfl, rfl⟩

theorem ExecuteIntegration_ok_shape (api : String → Except String VarMap)
    (nd : Option Value) (inputs : VarMap) (res : VarMap)
    (h : ExecuteIntegration api nd inputs = .ok res) :
    ∃ (t : ℚ) (city : String) (l : String) (resp : VarMap),
      getVar inputs "city" = some (.str city)
      ∧ res = [("temperature", .num t), ("location", .str l), ("apiResponse", .obj resp)] := by
  unfold ExecuteIntegration at h
  split at h <;> try exact Except.noConfusion h
  split at h <;> try exact Except.noConfusion h
  split at h <;> try exact Except.noConfusion h
  dsimp only at h
  split at h <;> try exact Except.noConfusion h
  split at h <;> try exact Except.noConfusion h
  split at h <;> try exact Except.noConfusion h
  injection h with h2
  exact ⟨_, _, _, _, by assumption, h2.symm⟩

/-- C5 amended: a successful integration dispatch reads the city from the
submitted form data (not from the variables map), writes exactly the two
variables `temperature` and `location` (every other variable, the form data
and the trace are unchanged), and its output carries exactly the keys
`temperature`, `location` and `apiResponse` — no endpoint URL and no status
code. -/
theorem integration_node_frame (env : EngineEnv) (node : NodeResponse)
    (ctx : ExecutionContext) (out : Value) (ctx' : ExecutionContext)
    (h : executeIntegrationNode env node ctx = .ok (out, ctx')) :
    (∃ city, getVar ctx.formData "city" = some (.str city))
    ∧ (∃ (t : ℚ) (l : String),
        getVar ctx'.vars "temperature" = some (.num t)
        ∧ getVar ctx'.vars "location" = some (.str l))
    ∧ (∀ k, k ≠ "temperature" → k ≠ "location" → getVar ctx'.vars k = getVar ctx.vars k)
    ∧ ctx'.formData = ctx.formData
    ∧ ctx'.steps = ctx.steps
    ∧ (∃ (t : ℚ) (l : String) (resp : VarMap),
        out = .obj [("temperature", .num t), ("location", .str l),
                    ("apiResponse", .obj resp)]) := by
  unfold executeIntegrationNode at h
  dsimp only at h
  cases hres : ExecuteIntegration env.apiClient node.data ctx.formData with
  | error e =>
    rw [hres] at h
    exact Except.noConfusion h
  | ok res =>
    rw [hres] at h
    obtain ⟨t, city, l, resp, hcity, hshape⟩ :=
      ExecuteIntegration_ok_shape env.apiClient node.data ctx.formData res hres
    subst hshape
    dsimp only at h
    have h1 : getVar [("temperature", Value.num t), ("location", Value.str l),
        ("apiResponse", Value.obj resp)] "temperature" = some (.num t) := rfl
    have h2 : getVar [("temperature", Value.num t), ("location", Value.str l),
        ("apiResponse", Value.obj resp)] "location" = some (.str l) := rfl
    rw [h1, h2] at h
    dsimp only at h
    simp only [Except.ok.injEq, Prod.mk.injEq] at h
    obtain ⟨ho, hc⟩ := h
    subst ho
    subst hc
    refine ⟨⟨city, hcity⟩, ⟨t, l, ?_, ?_⟩, ?_, rfl, rfl, ⟨t, l, resp, rfl⟩⟩
    · show getVar (setVar (setVar ctx.vars "temperature" (.num t)) "location" (.str l))
        "temperature" = some (.num t)
      rw [getVar_setVar_ne _ _ _ _ (by decide)]
      exact getVar_setVar_self _ _ _
    · exact getVar_setVar_self _ _ _
    · intro k hk1 hk2
      show getVar (setVar (setVar ctx.vars "temperature" (.num t)) "location" (.str l)) k
        = getVar ctx.vars k
      rw [getVar_setVar_ne _ _ _ _ hk2, getVar_setVar_ne _ _ _ _ hk1]

/-- C5 counterexample: with the variables map saying Melbourne and the form
data saying Sydney, the integration resolves Sydney — the city is read from
the form data, not from `variables["city"]` — and its output has exactly
the keys temperature, location and apiResponse (no endpoint URL, no status
code). -/
theorem integration_node_frame_counterexample :
    executeIntegrationNode mockEnv weatherNode mismatchCtx
      = .ok (.obj [("temperature", .num (mkRat 57 2)), ("location", .str "Sydney"),
                   ("apiResponse", .obj mockWeatherResponse)],
             { workflowId := "w", formData := [("city", .str "Sydney")],
               vars := [("location", .str "Sydney"),
                        ("temperature", .num (mkRat 57 2)),
                        ("city", .str "Melbourne")],
               steps := [] })
    ∧ getVar mismatchCtx.vars "city" = some (.str "Melbourne")
    ∧ getVar mismatchCtx.formData "city" = some (.str "Sydney") :=
  ⟨rfl, rfl, rfl⟩

/-- C5 witness: the frame property applied to the concrete mismatch run;
the untouched variable `city` keeps its old (variables-map) value. -/
theorem integration_node_frame_witness :
    getVar [("location", Value.str "Sydney"), ("temperature", Value.num (mkRat 57 2)),
            ("city", Value.str "Melbourne")] "city"
      = getVar mismatchCtx.vars "city" := by
  have h := integration_node_frame mockEnv weatherNode mismatchCtx
    (.obj [("temperature", .num (mkRat 57 2)), ("location", .str "Sydney"),
           ("apiResponse", .obj mockWeatherResponse)])
    { workflowId := "w", formData := [("city", .str "Sydney")],
      vars := [("location", .str "Sydney"), ("temperature", .num (mkRat 57 2)),
               ("city", .str "Melbourne")], steps := [] } rfl
  exact h.2.2.1 "city" (by decide) (by decide)

theorem steps_foldl_setVarCtx (g : String × Value → String) (l : VarMap) :
    ∀ c : ExecutionContext,
      (l.foldl (fun c kv => setVarCtx c (g kv) kv.2) c).steps = c.steps := by
  induction l with
  | nil => intro c; rfl
  | cons kv rest ih =>
    intro c
    rw [List.foldl_cons]
    exact ih (setVarCtx c (g kv) kv.2)

/-- C8: a workflow without a start node yields a failed response with an
empty trace before any node executes. -/
theorem missing_start_short_circuit (env : EngineEnv) (fuel : ℕ)
    (w : WorkflowResponse) (req : ExecutionRequest)
    (h : ∀ n ∈ w.nodes, n.type ≠ "start") :
    ExecuteWorkflow env fuel w req
      = some { status := "failed", steps := [], error := some "no start node found" } := by
  have hf : w.nodes.find? (fun n => n.type == "start") = none := by
    rw [List.find?_eq_none]
    intro n hn
    simpa using h n hn
  unfold ExecuteWorkflow
  cases hc : req.condition with
  | none => simp [hf, NewExecutionContext]
  | some cond =>
    simp only [hf, Option.some.injEq]
    have hsteps := steps_foldl_setVarCtx (fun kv => "condition_" ++ kv.1) cond
      (NewExecutionContext w.id req.formData)
    simp only [NewExecutionContext] at hsteps
    simp [hsteps, NewExecutionContext]

/-- C8 witness: the concrete workflow with a single end node. -/
theorem missing_start_short_circuit_witness :
    ExecuteWorkflow plainEnv 1 noStartWorkflow emptyReq
      = some { status := "failed", steps := [], error := some "no start node found" } :=
  missing_start_short_circuit plainEnv 1 noStartWorkflow emptyReq (by decide)

theorem executeStartNode_ok (node : NodeResponse) (ctx : ExecutionContext)
    (o : Value) (c1 : ExecutionContext)
    (h : executeStartNode node ctx = .ok (o, c1)) : c1 = ctx := by
  unfold executeStartNode at h
  injection h with h2
  simp only [Prod.mk.injEq] at h2
  exact h2.2.symm

theorem executeEndNode_ok (node : NodeResponse) (ctx : ExecutionContext)
    (o : Value) (c1 : ExecutionContext)
    (h : executeEndNode node ctx = .ok (o, c1)) : c1 = ctx := by
  unfold executeEndNode at h
  injection h with h2
  simp only [Prod.mk.injEq] at h2
  exact h2.2.symm

theorem executeFormNode_ok_steps (env : EngineEnv) (node : NodeResponse)
    (ctx : ExecutionContext) (o : Value) (c1 : ExecutionContext)
    (h : executeFormNode env node ctx = .ok (o, c1)) : c1.steps = ctx.steps := by
  unfold executeFormNode at h
  split at h
  · exact Except.noConfusion h
  · injection h with h2
    simp only [Prod.mk.injEq] at h2
    rw [← h2.2]
    exact steps_foldl_setVarCtx (fun kv => kv.1) ctx.formData ctx

theorem executeIntegrationNode_ok_steps (env : EngineEnv) (node : NodeResponse)
    (ctx : ExecutionContext) (o : Value) (c1 : ExecutionContext)
    (h : executeIntegrationNode env node ctx = .ok (o, c1)) : c1.steps = ctx.steps := by
  unfold executeIntegrationNode at h
  dsimp only at h
  split at h
  · exact Except.noConfusion h
  · split at h <;> split at h <;>
      (injection h with h2
       simp only [Prod.mk.injEq] at h2
       rw [← h2.2]) <;> rfl

theorem executeConditionNode_ok (node : NodeResponse) (ctx : ExecutionContext)
    (o : Value) (c1 : ExecutionContext)
    (h : executeConditionNode node ctx = .ok (o, c1)) :
    c1.steps = ctx.steps ∧ ∃ b, getVar c1.vars "conditionMet" = some (.bool b) := by
  unfold executeConditionNode at h
  split at h <;> try exact Except.noConfusion h
  split at h <;> try exact Except.noConfusion h
  split at h <;> try exact Except.noConfusion h
  split at h <;> try exact Except.noConfusion h
  split at h <;> try exact Except.noConfusion h
  split at h <;> try exact Except.noConfusion h
  split at h <;> try exact Except.noConfusion h
  dsimp only at h
  injection h with h2
  simp only [Prod.mk.injEq] at h2
  rw [← h2.2]
  exact ⟨rfl, _, getVar_setVar_self _ _ _⟩

theorem executeEmailNode_ok_steps (env : EngineEnv) (node : NodeResponse)
    (ctx : ExecutionContext) (o : Value) (c1 : ExecutionContext)
    (h : executeEmailNode env node ctx = .ok (o, c1)) : c1.steps = ctx.steps := by
  unfold executeEmailNode at h
  split at h <;> try exact Except.noConfusion h
  split at h <;> try exact Except.noConfusion h
  dsimp only at h
  split at h <;> try exact Except.noConfusion h
  injection h with h2
  simp only [Prod.mk.injEq] at h2
  rw [← h2.2]

/-- A successful dispatch never touches the trace, and a successful
condition dispatch leaves a boolean `conditionMet` in the variables map. -/
theorem dispatch_ok_frame (env : EngineEnv) (node : NodeResponse)
    (ctx : ExecutionContext) (o : Value) (c1 : ExecutionContext)
    (h : dispatchNode env node ctx = .ok (o, c1)) :
    c1.steps = ctx.steps
    ∧ (node.type = "condition" → ∃ b, getVar c1.vars "conditionMet" = some (.bool b)) := by
  unfold dispatchNode at h
  split at h
  · rename_i heq
    refine ⟨by rw [executeStartNode_ok node ctx o c1 h], ?_⟩
    intro hc
    rw [heq] at hc
    exact absurd hc (by decide)
  · rename_i heq
    refine ⟨executeFormNode_ok_steps env node ctx o c1 h, ?_⟩
    intro hc
    rw [heq] at hc
    exact absurd hc (by decide)
  · rename_i heq
    refine ⟨executeIntegrationNode_ok_steps env node ctx o c1 h, ?_⟩
    intro hc
    rw [heq] at hc
    exact absurd hc (by decide)
  · exact ⟨(executeConditionNode_ok node ctx o c1 h).1,
      fun _ => (executeConditionNode_ok node ctx o c1 h).2⟩
  · rename_i heq
    refine ⟨executeEmailNode_ok_steps env node ctx o c1 h, ?_⟩
    intro hc
    rw [heq] at hc
    exact absurd hc (by decide)
  · rename_i heq
    refine ⟨by rw [executeEndNode_ok node ctx o c1 h], ?_⟩
    intro hc
    rw [heq] at hc
    exact absurd hc (by decide)
  · exact Except.noConfusion h

theorem StepsSpec_absorb (ctx ctx1 : ExecutionContext) (r : ExecResult)
    (mid0 : List ExecutionStep)
    (h1 : ctx1.steps = ctx.steps ++ mid0) (h0 : ∀ s ∈ mid0, s.status = "completed")
    (h : StepsSpec ctx1 r) : StepsSpec ctx r := by
  cases r with
  | ok ctx' =>
    obtain ⟨mid, hm, hc⟩ := h
    refine ⟨mid0 ++ mid, by rw [hm, h1, List.append_assoc], ?_⟩
    intro s hs
    rcases List.mem_append.mp hs with h' | h'
    · exact h0 s h'
    · exact hc s h'
  | fail msg ctx' =>
    obtain ⟨mid, hm, hcase⟩ := h
    refine ⟨mid0 ++ mid, by rw [hm, h1, List.append_assoc], ?_⟩
    rcases hcase with ⟨pre, fs, hmid, hpre, hfs, herr⟩ | ⟨ht, hall⟩
    · refine Or.inl ⟨mid0 ++ pre, fs, by rw [hmid, List.append_assoc], ?_, hfs, herr⟩
      intro s hs
      rcases List.mem_append.mp hs with h' | h'
      · exact h0 s h'
      · exact hpre s h'
    · refine Or.inr ⟨ht, ?_⟩
      intro s hs
      rcases List.mem_append.mp hs with h' | h'
      · exact h0 s h'
      · exact hall s h'
  | outOfFuel => trivial

theorem StepsSpec_fail_step (ctx : ExecutionContext) (msg : String) (s : ExecutionStep)
    (hs : s.status = "failed") (he : s.error = some msg) :
    StepsSpec ctx (.fail msg (addStep ctx s)) :=
  ⟨[s], by simp [addStep], Or.inl ⟨[], s, rfl, by simp, hs, he⟩⟩

theorem StepsSpec_node_step (ctx ctx1 : ExecutionContext) (s : ExecutionStep)
    (r : ExecResult) (hsteps : ctx1.steps = ctx.steps) (hs : s.status = "completed")
    (h : StepsSpec (addStep ctx1 s) r) : StepsSpec ctx r :=
  StepsSpec_absorb ctx (addStep ctx1 s) r [s]
    (by simp [addStep, hsteps]) (by simpa using hs) h

theorem executeNextNodes_spec (nodes : List NodeResponse)
    (exec : NodeResponse → ExecutionContext → ExecResult)
    (hexec : ∀ n c, StepsSpec c (exec n c)) :
    ∀ (l : List EdgeResponse) (ctx : ExecutionContext),
      StepsSpec ctx (executeNextNodes nodes exec l ctx) := by
  intro l
  induction l with
  | nil => intro ctx; exact ⟨[], by simp, by simp⟩
  | cons e rest ih =>
    intro ctx
    show StepsSpec ctx (executeNextNodes nodes exec (e :: rest) ctx)
    rw [executeNextNodes]
    cases hf : findNode nodes e.target with
    | none =>
      simp only [hf]
      exact ⟨[], by simp, Or.inr ⟨⟨e.target, rfl⟩, by simp⟩⟩
    | some nxt =>
      simp only [hf]
      cases hx : exec nxt ctx with
      | ok ctx' =>
        simp only [hx]
        have h1 := hexec nxt ctx
        rw [hx] at h1
        obtain ⟨mid0, hm0, hc0⟩ := h1
        exact StepsSpec_absorb ctx ctx' _ mid0 hm0 hc0 (ih ctx')
      | fail m c =>
        simp only [hx]
        have h1 := hexec nxt ctx
        rw [hx] at h1
        exact h1
      | outOfFuel =>
        simp only [hx]
        trivial

theorem continueToNextNodes_spec (nodes : List NodeResponse) (edges : List EdgeResponse)
    (exec : NodeResponse → ExecutionContext → ExecResult) (node : NodeResponse)
    (ctx : ExecutionContext)
    (hexec : ∀ n c, StepsSpec c (exec n c))
    (hcond : node.type = "condition" → ∃ b, getVar ctx.vars "conditionMet" = some (.bool b)) :
    StepsSpec ctx (continueToNextNodes nodes edges exec node ctx) := by
  unfold continueToNextNodes
  by_cases ht : node.type = "condition"
  · obtain ⟨b, hb⟩ := hcond ht
    simp only [ht, hb]
    rw [followConditionEdges_eq_filter]
    exact executeNextNodes_spec nodes exec hexec _ ctx
  · have htb : (node.type == "condition") = false := by simpa using ht
    simp only [htb]
    exact executeNextNodes_spec nodes exec hexec _ ctx

theorem executeNode_spec (env : EngineEnv) (nodes : List NodeResponse)
    (edges : List EdgeResponse) :
    ∀ (fuel : ℕ) (node : NodeResponse) (ctx : ExecutionContext),
      StepsSpec ctx (executeNode env nodes edges fuel node ctx) := by
  intro fuel
  induction fuel with
  | zero => intro node ctx; trivial
  | succ fuel ih =>
    intro node ctx
    show StepsSpec ctx (executeNode env nodes edges (fuel + 1) node ctx)
    rw [executeNode]
    dsimp only
    cases hd : dispatchNode env node ctx with
    | error err =>
      simp only [hd]
      exact StepsSpec_fail_step ctx err _ rfl rfl
    | ok p =>
      obtain ⟨output, ctx1⟩ := p
      have hfr := dispatch_ok_frame env node ctx output ctx1 hd
      simp only [hd]
      exact StepsSpec_node_step ctx ctx1 _ _ hfr.1 rfl
        (continueToNextNodes_spec nodes edges (executeNode env nodes edges fuel) node
          (addStep ctx1 _) ih (fun hc => hfr.2 hc))

theorem strHasPrefix_append (p t : String) : strHasPrefix p (p ++ t) = true := by
  unfold strHasPrefix
  rw [List.isPrefixOf_iff_prefix]
  have hd : (p ++ t).data = p.data ++ t.data := rfl
  rw [hd]
  exact List.prefix_append _ _

theorem initial_ctx_steps (w : WorkflowResponse) (req : ExecutionRequest) :
    (match req.condition with
      | none => NewExecutionContext w.id req.formData
      | some cond => cond.foldl
          (fun c (kv : String × Value) => setVarCtx c ("condition_" ++ kv.1) kv.2)
          (NewExecutionContext w.id req.formData)).steps = [] := by
  cases req.condition with
  | none => rfl
  | some cond =>
    exact (steps_foldl_setVarCtx (fun kv => "condition_" ++ kv.1) cond
      (NewExecutionContext w.id req.formData)).trans rfl

/-- Where the error of a failed run lives: either in the failing node's
step, which closes the trace (all earlier steps completed), or it is the
traversal-level `next node not found` error (no failed step at all), or the
missing-start error (no steps at all). -/
theorem ExecuteWorkflow_error_cases (env : EngineEnv) (fuel : ℕ)
    (w : WorkflowResponse) (req : ExecutionRequest) (resp : ExecutionResponse)
    (msg : String)
    (hrun : ExecuteWorkflow env fuel w req = some resp)
    (herr : resp.error = some msg) :
    resp.status = "failed"
    ∧ ((∃ pre fs, resp.steps = pre ++ [fs] ∧ (∀ s ∈ pre, s.status = "completed")
        ∧ fs.status = "failed" ∧ fs.error = some msg)
      ∨ ((∃ t, msg = "next node not found: " ++ t)
        ∧ ∀ s ∈ resp.steps, s.status = "completed")
      ∨ (msg = "no start node found" ∧ resp.steps = [])) := by
  have hinit := initial_ctx_steps w req
  unfold ExecuteWorkflow at hrun
  dsimp only at hrun
  cases hfind : w.nodes.find? (fun n => n.type == "start") with
  | none =>
    rw [hfind] at hrun
    dsimp only at hrun
    injection hrun with h2
    subst h2
    injection herr with hmsg
    exact ⟨rfl, Or.inr (Or.inr ⟨hmsg.symm, hinit⟩)⟩
  | some startNode =>
    rw [hfind] at hrun
    dsimp only at hrun
    generalize hg : (match req.condition with
      | none => NewExecutionContext w.id req.formData
      | some cond => cond.foldl
          (fun c (kv : String × Value) => setVarCtx c ("condition_" ++ kv.1) kv.2)
          (NewExecutionContext w.id req.formData)) = ctxI at hrun hinit
    cases hx : executeNode env w.nodes w.edges fuel startNode ctxI with
    | ok c =>
      rw [hx] at hrun
      injection hrun with h2
      subst h2
      exact Option.noConfusion herr
    | outOfFuel =>
      rw [hx] at hrun
      exact Option.noConfusion hrun
    | fail m c =>
      rw [hx] at hrun
      injection hrun with h2
      subst h2
      injection herr with hmsg
      subst hmsg
      have hspec := executeNode_spec env w.nodes w.edges fuel startNode ctxI
      rw [hx] at hspec
      obtain ⟨mid, hmid, hdisj⟩ := hspec
      rw [hinit] at hmid
      simp only [List.nil_append] at hmid
      refine ⟨rfl, ?_⟩
      rcases hdisj with ⟨pre, fs, hmideq, hpre, hfs, he⟩ | ⟨ht, hall⟩
      · exact Or.inl ⟨pre, fs, by rw [hmid, hmideq], hpre, hfs, he⟩
      · exact Or.inr (Or.inl ⟨ht, fun s hs => hall s (by rwa [← hmid])⟩)

/-- C3: in a run aborted by a node-dispatch error (the surfaced error is
neither the traversal-level `next node not found` message nor the
missing-start message), the response is failed with the error set, the
failing node's step is the last entry of the trace with status `failed` and
the error message, every step appended before it remains (with status
`completed`), and no step follows it — no further node was executed. -/
theorem dispatch_failure_aborts (env : EngineEnv) (fuel : ℕ) (w : WorkflowResponse)
    (req : ExecutionRequest) (resp : ExecutionResponse) (msg : String)
    (hrun : ExecuteWorkflow env fuel w req = some resp)
    (herr : resp.error = some msg)
    (hnp : strHasPrefix "next node not found: " msg = false)
    (hns : msg ≠ "no start node found") :
    resp.status = "failed"
    ∧ ∃ pre fs, resp.steps = pre ++ [fs] ∧ (∀ s ∈ pre, s.status = "completed")
      ∧ fs.status = "failed" ∧ fs.error = some msg := by
  obtain ⟨hst, hdisj⟩ := ExecuteWorkflow_error_cases env fuel w req resp msg hrun herr
  refine ⟨hst, ?_⟩
  rcases hdisj with h | ⟨⟨t, ht⟩, _⟩ | ⟨hm, _⟩
  · exact h
  · rw [ht, strHasPrefix_append] at hnp
    exact Bool.noConfusion hnp
  · exact absurd hm hns

/-- C3 witness: the concrete run that fails on an unknown node type. -/
theorem dispatch_failure_aborts_witness :
    unknownTypeResp.status = "failed"
    ∧ ∃ pre fs, unknownTypeResp.steps = pre ++ [fs]
      ∧ (∀ s ∈ pre, s.status = "completed")
      ∧ fs.status = "failed" ∧ fs.error = some "unsupported node type: mystery" :=
  dispatch_failure_aborts plainEnv 10 unknownTypeWorkflow emptyReq unknownTypeResp
    "unsupported node type: mystery" rfl rfl rfl (by decide)

/-- C4 amended: every error surfacing from a run is either recorded in the
failing node's step — which is the final trace entry, all earlier steps
completed — or is the traversal-level `next node not found` error (all
trace steps completed, no failed step), or the missing-start error (empty
trace).  Form-node payloads that fail to parse are logged and skipped, so
that parse error is swallowed rather than recorded (see the
counterexample). -/
theorem error_reporting_taxonomy (env : EngineEnv) (fuel : ℕ) (w : WorkflowResponse)
    (req : ExecutionRequest) (resp : ExecutionResponse) (msg : String)
    (hrun : ExecuteWorkflow env fuel w req = some resp)
    (herr : resp.error = some msg) :
    resp.status = "failed"
    ∧ ((∃ pre fs, resp.steps = pre ++ [fs] ∧ (∀ s ∈ pre, s.status = "completed")
        ∧ fs.status = "failed" ∧ fs.error = some msg)
      ∨ (strHasPrefix "next node not found: " msg = true
        ∧ ∀ s ∈ resp.steps, s.status = "completed")
      ∨ (msg = "no start node found" ∧ resp.steps = [])) := by
  obtain ⟨hst, hdisj⟩ := ExecuteWorkflow_error_cases env fuel w req resp msg hrun herr
  refine ⟨hst, ?_⟩
  rcases hdisj with h | ⟨⟨t, ht⟩, hall⟩ | h
  · exact Or.inl h
  · exact Or.inr (Or.inl ⟨by rw [ht]; exact strHasPrefix_append _ _, hall⟩)
  · exact Or.inr (Or.inr h)

/-- C4 counterexample: a form node whose payload fails to unmarshal — a
parse error of the spec's taxonomy occurring during the run — is silently
skipped: the run completes, every step (including the form node's) is
`completed`, and no step or top-level field records the parse error. -/
theorem error_reporting_taxonomy_counterexample :
    (ExecuteWorkflow plainEnv 10 swallowedParseWorkflow emptyReq).map
        (fun r => (r.status, r.steps.map (fun s => s.status), r.error))
      = some ("completed", ["completed", "completed"], none)
    ∧ exceptIsError (decodeFormNodeData badFormPayload) = true :=
  ⟨rfl, rfl⟩

/-- C4 witness: the concrete run failing on form validation has the error
recorded in the form node's final failed step. -/
theorem error_reporting_taxonomy_witness :
    validationFailResp.status = "failed"
    ∧ ((∃ pre fs, validationFailResp.steps = pre ++ [fs]
        ∧ (∀ s ∈ pre, s.status = "completed")
        ∧ fs.status = "failed"
        ∧ fs.error
            = some "form validation failed: validation errors: field 'name' is required")
      ∨ (strHasPrefix "next node not found: "
            "form validation failed: validation errors: field 'name' is required" = true
        ∧ ∀ s ∈ validationFailResp.steps, s.status = "completed")
      ∨ ("form validation failed: validation errors: field 'name' is required"
            = "no start node found"
        ∧ validationFailResp.steps = [])) :=
  error_reporting_taxonomy plainEnv 10 validationFailWorkflow emptyReq validationFailResp
    "form validation failed: validation errors: field 'name' is required" rfl rfl

/-- C9: the trace is append-only — each visit of a node appends exactly one
step for that node (followed only by the steps of the nodes visited after
it), never modifying or removing what was already appended — and a node
reached along two re-converging paths contributes two separate entries, as
the diamond run's trace `start, a, d, b, d` shows. -/
theorem trace_append_only :
    (∀ (env : EngineEnv) (nodes : List NodeResponse) (edges : List EdgeResponse)
        (fuel : ℕ) (node : NodeResponse) (ctx : ExecutionContext),
      (∀ ctx', executeNode env nodes edges (fuel + 1) node ctx = .ok ctx' →
        ∃ s rest, ctx'.steps = ctx.steps ++ s :: rest ∧ s.nodeId = node.id)
      ∧ ∀ msg ctx', executeNode env nodes edges (fuel + 1) node ctx = .fail msg ctx' →
        ∃ s rest, ctx'.steps = ctx.steps ++ s :: rest ∧ s.nodeId = node.id)
    ∧ (ExecuteWorkflow plainEnv 10 diamondWorkflow emptyReq).map
        (fun r => r.steps.map (fun s => s.nodeId))
      = some ["start", "a", "d", "b", "d"] := by
  refine ⟨?_, rfl⟩
  intro env nodes edges fuel node ctx
  constructor
  · intro ctx' h
    rw [executeNode] at h
    dsimp only at h
    cases hd : dispatchNode env node ctx with
    | error err =>
      rw [hd] at h
      dsimp only at h
      exact ExecResult.noConfusion h
    | ok p =>
      obtain ⟨output, ctx1⟩ := p
      rw [hd] at h
      dsimp only at h
      have hfr := dispatch_ok_frame env node ctx output ctx1 hd
      have hspec := continueToNextNodes_spec nodes edges (executeNode env nodes edges fuel)
        node (addStep ctx1 (stepOf node "completed" (some output) none))
        (executeNode_spec env nodes edges fuel) (fun hc => hfr.2 hc)
      rw [h] at hspec
      obtain ⟨mid, hmid, _⟩ := hspec
      refine ⟨stepOf node "completed" (some output) none, mid, ?_, rfl⟩
      rw [hmid]
      simp [addStep, hfr.1]
  · intro msg ctx' h
    rw [executeNode] at h
    dsimp only at h
    cases hd : dispatchNode env node ctx with
    | error err =>
      rw [hd] at h
      dsimp only at h
      injection h with h1 h2
      refine ⟨stepOf node "failed" none (some msg), [], ?_, rfl⟩
      rw [← h2, ← h1]
      simp [addStep]
    | ok p =>
      obtain ⟨output, ctx1⟩ := p
      rw [hd] at h
      dsimp only at h
      have hfr := dispatch_ok_frame env node ctx output ctx1 hd
      have hspec := continueToNextNodes_spec nodes edges (executeNode env nodes edges fuel)
        node (addStep ctx1 (stepOf node "completed" (some output) none))
        (executeNode_spec env nodes edges fuel) (fun hc => hfr.2 hc)
      rw [h] at hspec
      obtain ⟨mid, hmid, _⟩ := hspec
      refine ⟨stepOf node "completed" (some output) none, mid, ?_, rfl⟩
      rw [hmid]
      simp [addStep, hfr.1]

/-- C9 witness: executing the lone end node appends exactly one step for it. -/
theorem trace_append_only_witness :
    ∃ s rest, endOnlyCtxAfter.steps = endOnlyCtx.steps ++ s :: rest
      ∧ s.nodeId = singleEndNode.id :=
  (trace_append_only.1 plainEnv [singleEndNode] [] 0 singleEndNode endOnlyCtx).1
    endOnlyCtxAfter rfl

end WorkflowEngine
